import Mathlib

/-
Verification development for the crypto arbitrage trading engine.

Shallow embedding conventions:
- shopspring decimal values are modelled as exact rationals (ℚ); the spec's
  data model mandates exact decimal arithmetic.
- Go int64 values are modelled as ℤ with explicit two's-complement
  wraparound (wrap64) where Go arithmetic can overflow; Go integer division
  truncates toward zero, modelled with Int.tdiv.
- Go maps are modelled as functions into Option (presence checks) or as
  total functions with the Go zero value as default where the source reads
  missing keys without an ok-check.
- Timestamps are ℤ (milliseconds); wall-clock reads become explicit
  parameters.
- Fields the verified operations never read (UUIDs, timestamps on records,
  log output) are omitted from the embedded records.
-/

namespace Trading

/-! ### Fixed-point price arithmetic (internal/domain fixedpoint) -/

/-- PricePrecision constant: 10^9 (nine fractional digits). -/
def pricePrecision : ℤ := 1000000000

/-- Two's-complement wraparound of a signed 64-bit integer value. -/
def wrap64 (x : ℤ) : ℤ := (x + 2 ^ 63) % 2 ^ 64 - 2 ^ 63

/-- Truncation of a rational toward zero; this is the semantics of
shopspring decimal.IntPart used by ToFixed. -/
def ratTrunc (q : ℚ) : ℤ := if 0 ≤ q then ⌊q⌋ else ⌈q⌉

/-- ToFixed: d.Mul(pricePrecisionDec).IntPart() stored in an int64. -/
def toFixed (d : ℚ) : ℤ := wrap64 (ratTrunc (d * (pricePrecision : ℚ)))

/-- FixedPrice.ToDecimal: decimal.New(int64(f), -9), i.e. f × 10⁻⁹ exactly. -/
def fixedToDecimal (f : ℤ) : ℚ := (f : ℚ) / (pricePrecision : ℚ)

/-- FixedPrice.Add: int64 addition (wraps on overflow in Go). -/
def fixedAdd (a b : ℤ) : ℤ := wrap64 (a + b)

/-- FixedPrice.Sub: int64 subtraction. -/
def fixedSub (a b : ℤ) : ℤ := wrap64 (a - b)

/-- FixedPrice.Mul: a*b / PricePrecision with int64 product wraparound and
truncating division; the quotient always fits in int64. -/
def fixedMul (a b : ℤ) : ℤ := Int.tdiv (wrap64 (a * b)) pricePrecision

/-- FixedPrice.Div: guards a zero divisor (returns 0), otherwise
a*PricePrecision / b with int64 wraparound on the product, truncating
division, and Go's defined wraparound on MinInt64 / -1. -/
def fixedDiv (a b : ℤ) : ℤ :=
  if b = 0 then 0 else wrap64 (Int.tdiv (wrap64 (a * pricePrecision)) b)

/-- FixedFromBps: bps * PricePrecision / 10000 in int64 arithmetic. -/
def fixedFromBps (bps : ℤ) : ℤ := Int.tdiv (wrap64 (bps * pricePrecision)) 10000

/-! ### Domain enumerations and records (internal/domain) -/

inductive Side
  | buy
  | sell
deriving DecidableEq, Repr

inductive InstrumentType
  | spot
  | perp
deriving DecidableEq, Repr

inductive OrderType
  | limit
  | market
deriving DecidableEq, Repr

inductive OrderStatus
  | pendingNew
  | submitted
  | acknowledged
  | partFill
  | filled
  | cancelled
  | rejected
  | submitFailed
deriving DecidableEq, Repr

/-- OrderStatus.IsTerminal from the domain package. -/
def OrderStatus.isTerminal : OrderStatus → Bool
  | .filled => true
  | .cancelled => true
  | .rejected => true
  | .submitFailed => true
  | _ => false

inductive StrategyType
  | triArb
  | basisArb
deriving DecidableEq, Repr

inductive RiskMode
  | normal
  | warning
  | degraded
  | dataStale
  | halted
deriving DecidableEq, Repr

structure PriceLevel where
  price : ℚ
  size : ℚ
deriving DecidableEq

structure OrderBookSnapshot where
  venue : String
  symbol : String
  bids : List PriceLevel
  asks : List PriceLevel
  sequence : ℕ
deriving DecidableEq

/-- OrderBookSnapshot.BestBid: first bid level, if any. -/
def OrderBookSnapshot.bestBid (ob : OrderBookSnapshot) : Option PriceLevel := ob.bids.head?

/-- OrderBookSnapshot.BestAsk: first ask level, if any. -/
def OrderBookSnapshot.bestAsk (ob : OrderBookSnapshot) : Option PriceLevel := ob.asks.head?

structure CostEstimate where
  feeBps : ℚ
  slippageBps : ℚ
  fundingBps : Option ℚ
  totalBps : ℚ
  confidence : ℚ
deriving DecidableEq

structure LegSpec where
  symbol : String
  side : Side
  instrumentType : InstrumentType
  price : ℚ
  size : ℚ
  orderType : OrderType
deriving DecidableEq

/-- TradeSignal; the signal id and the two timestamps are omitted (none of
the verified operations read them). -/
structure TradeSignal where
  strategy : StrategyType
  venue : String
  legs : List LegSpec
  expectedEdgeBps : ℚ
  costEstimate : CostEstimate
  confidence : ℚ
deriving DecidableEq

/-- Order record; timestamps are omitted. -/
structure Order where
  internalId : ℕ
  venueId : String
  signalId : ℕ
  venue : String
  symbol : String
  side : Side
  orderType : OrderType
  price : ℚ
  size : ℚ
  filledSize : ℚ
  avgFillPrice : ℚ
  status : OrderStatus
deriving DecidableEq

structure OrderRequest where
  internalId : ℕ
  signalId : ℕ
  venue : String
  symbol : String
  side : Side
  instrumentType : InstrumentType
  orderType : OrderType
  price : ℚ
  size : ℚ
  idempotencyKey : String
deriving DecidableEq

structure OrderAck where
  internalId : ℕ
  venueId : String
  status : OrderStatus
deriving DecidableEq

structure Position where
  venue : String
  asset : String
  instrumentType : InstrumentType
  size : ℚ
  entryPrice : ℚ
deriving DecidableEq

structure VenueAssetKey where
  venue : String
  asset : String
deriving DecidableEq

/-! ### Risk manager (internal/risk) -/

inductive RejectionReason
  | positionLimit
  | notionalLimit
  | dailyLoss
  | globalOrders
  | venueOrders
  | symbolOrders
  | dataStale
  | killSwitch
  | halted
deriving DecidableEq, Repr

/-- ValidationResult; the human-readable Details string is omitted. -/
structure ValidationResult where
  approved : Bool
  reason : Option RejectionReason
deriving DecidableEq

/-- Characters of the symbol before the first slash, or none when the
symbol has no slash (the byte loop in extractAsset). -/
def beforeSlash : List Char → Option (List Char)
  | [] => none
  | c :: rest => if c = '/' then some [] else (beforeSlash rest).map (c :: ·)

/-- extractAsset: the part of the symbol before the first slash, else the
first match among the BTC/ETH/SOL prefixes, else the whole symbol. -/
def extractAsset (symbol : String) : String :=
  match beforeSlash symbol.data with
  | some p => ⟨p⟩
  | none =>
    if List.isPrefixOf "BTC".data symbol.data then "BTC"
    else if List.isPrefixOf "ETH".data symbol.data then "ETH"
    else if List.isPrefixOf "SOL".data symbol.data then "SOL"
    else symbol

structure OrderCountState where
  global : ℤ
  perVenue : String → ℤ
  perSymbol : String → ℤ

structure MaxOpenOrdersConfig where
  global : ℤ
  perVenue : ℤ
  perSymbol : ℤ

structure RiskConfig where
  maxPosition : String → Option ℚ
  maxNotionalPerVenue : String → Option ℚ
  dailyLossCapUSDT : ℚ
  warningThresholdPct : ℤ
  maxOpenOrders : MaxOpenOrdersConfig

structure KillSwitchState where
  active : Bool
  reason : String
deriving DecidableEq

/-- Risk manager state: RiskState plus the PnL tracker and the kill switch,
together with the durable kill-switch file contents (persistedKillSwitch). -/
structure RiskManagerState where
  mode : RiskMode
  positions : VenueAssetKey → Option Position
  openOrderCounts : OrderCountState
  venueNotionals : String → ℚ
  dailyRealizedPnL : ℚ
  dailyUnrealizedPnL : ℚ
  killSwitch : KillSwitchState
  persistedKillSwitch : Option KillSwitchState

/-- Position-cap test for one leg inside ValidateSignal: with a configured
cap for the leg's asset, reject when |current| + leg.size exceeds it. -/
def positionCheckFail (cfg : RiskConfig) (st : RiskManagerState) (venue : String)
    (leg : LegSpec) : Bool :=
  let asset := extractAsset leg.symbol
  match cfg.maxPosition asset with
  | none => false
  | some maxPos =>
    let currentPos : ℚ :=
      match st.positions ⟨venue, asset⟩ with
      | some pos => |pos.size|
      | none => 0
    currentPos + leg.size > maxPos

/-- Venue gross-notional test inside ValidateSignal. -/
def notionalCheckFail (cfg : RiskConfig) (st : RiskManagerState) (sig : TradeSignal) : Bool :=
  match cfg.maxNotionalPerVenue sig.venue with
  | none => false
  | some maxNotional =>
    let additionalNotional := sig.legs.foldl (fun acc leg => acc + leg.price * leg.size) 0
    st.venueNotionals sig.venue + additionalNotional > maxNotional

/-- ValidateSignal, translated check for check from the source; the
market-data IsDataBlocked read is the blocked parameter. -/
def validateSignal (cfg : RiskConfig) (blocked : String → String → Bool)
    (st : RiskManagerState) (sig : TradeSignal) : ValidationResult :=
  if st.killSwitch.active then ⟨false, some .killSwitch⟩
  else if st.mode = RiskMode.halted then ⟨false, some .halted⟩
  else if sig.legs.any (fun leg => blocked sig.venue leg.symbol) then ⟨false, some .dataStale⟩
  else if sig.legs.any (positionCheckFail cfg st sig.venue) then ⟨false, some .positionLimit⟩
  else if notionalCheckFail cfg st sig then ⟨false, some .notionalLimit⟩
  else if st.dailyRealizedPnL + st.dailyUnrealizedPnL ≤ -cfg.dailyLossCapUSDT then
    ⟨false, some .dailyLoss⟩
  else if st.openOrderCounts.global ≥ cfg.maxOpenOrders.global then ⟨false, some .globalOrders⟩
  else if st.openOrderCounts.perVenue sig.venue ≥ cfg.maxOpenOrders.perVenue then
    ⟨false, some .venueOrders⟩
  else if sig.legs.any (fun leg =>
      st.openOrderCounts.perSymbol leg.symbol ≥ cfg.maxOpenOrders.perSymbol) then
    ⟨false, some .symbolOrders⟩
  else ⟨true, none⟩

/-- Specification-side check list, written from the spec's validation
order: each entry is the enumerated reason of that check when it fails. -/
def riskCheckResults (cfg : RiskConfig) (blocked : String → String → Bool)
    (st : RiskManagerState) (sig : TradeSignal) : List (Option RejectionReason) :=
  [ if st.killSwitch.active then some RejectionReason.killSwitch else none,
    if st.mode = RiskMode.halted then some RejectionReason.halted else none,
    if sig.legs.any (fun leg => blocked sig.venue leg.symbol)
      then some RejectionReason.dataStale else none,
    if sig.legs.any (positionCheckFail cfg st sig.venue)
      then some RejectionReason.positionLimit else none,
    if notionalCheckFail cfg st sig then some RejectionReason.notionalLimit else none,
    if st.dailyRealizedPnL + st.dailyUnrealizedPnL ≤ -cfg.dailyLossCapUSDT
      then some RejectionReason.dailyLoss else none,
    if st.openOrderCounts.global ≥ cfg.maxOpenOrders.global
      then some RejectionReason.globalOrders else none,
    if st.openOrderCounts.perVenue sig.venue ≥ cfg.maxOpenOrders.perVenue
      then some RejectionReason.venueOrders else none,
    if sig.legs.any (fun leg =>
        st.openOrderCounts.perSymbol leg.symbol ≥ cfg.maxOpenOrders.perSymbol)
      then some RejectionReason.symbolOrders else none ]

/-- Specification-side validator: short-circuit on the first failing check
in the fixed order, approve when every check passes. -/
def validateSignalSpec (cfg : RiskConfig) (blocked : String → String → Bool)
    (st : RiskManagerState) (sig : TradeSignal) : ValidationResult :=
  match (riskCheckResults cfg blocked st sig).findSome? id with
  | some r => ⟨false, some r⟩
  | none => ⟨true, none⟩

/-- Reason string written by the kill switch on a daily PnL breach; the
decimal rendering of the PnL is represented by its reduced fraction. -/
def breachReason (total : ℚ) : String :=
  "daily PnL breach: " ++ toString total.num ++ "/" ++ toString total.den

/-- KillSwitch.Activate: set active with reason and persist the state to
the durable file. -/
def killSwitchActivate (st : RiskManagerState) (reason : String) : RiskManagerState :=
  let ks : KillSwitchState := ⟨true, reason⟩
  { st with killSwitch := ks, persistedKillSwitch := some ks }

/-- checkPnLLimits: on total ≤ -cap go HALTED and activate the kill switch;
else on total ≤ warning level move NORMAL to WARNING. -/
def checkPnLLimits (cfg : RiskConfig) (st : RiskManagerState) : RiskManagerState :=
  let totalPnL := st.dailyRealizedPnL + st.dailyUnrealizedPnL
  let lossCap := -cfg.dailyLossCapUSDT
  let warningLevel := lossCap * (cfg.warningThresholdPct : ℚ) / 100
  if totalPnL ≤ lossCap then
    killSwitchActivate { st with mode := RiskMode.halted } (breachReason totalPnL)
  else if totalPnL ≤ warningLevel then
    if st.mode = RiskMode.normal then { st with mode := RiskMode.warning } else st
  else st

/-- OnOrderFill: add realized PnL, update the position for the order's
venue/asset, add the fill notional to the venue total, then check PnL
limits. -/
def onOrderFill (cfg : RiskConfig) (st : RiskManagerState) (order : Order)
    (pnl : ℚ) : RiskManagerState :=
  let st1 := { st with dailyRealizedPnL := st.dailyRealizedPnL + pnl }
  let asset := extractAsset order.symbol
  let key : VenueAssetKey := ⟨order.venue, asset⟩
  let st2 :=
    match st1.positions key with
    | some pos =>
      let newSize :=
        if order.side = Side.buy then pos.size + order.filledSize
        else pos.size - order.filledSize
      { st1 with positions := fun k =>
          if k = key then some { pos with size := newSize } else st1.positions k }
    | none =>
      let size := if order.side = Side.sell then -order.filledSize else order.filledSize
      let newPos : Position :=
        { venue := order.venue, asset := asset, instrumentType := InstrumentType.spot,
          size := size, entryPrice := order.avgFillPrice }
      { st1 with positions := fun k => if k = key then some newPos else st1.positions k }
  let notional := order.avgFillPrice * order.filledSize
  let st3 := { st2 with venueNotionals := fun v =>
      if v = order.venue then st2.venueNotionals v + notional else st2.venueNotionals v }
  checkPnLLimits cfg st3

/-! ### Order manager (internal/order) -/

/-- OrderStateChange event; a prevStatus of none is Go's empty-string
status used on the creation publish. -/
structure OrderStateChange where
  order : Order
  prevStatus : Option OrderStatus
  newStatus : OrderStatus
deriving DecidableEq

/-- Order manager state: the orders table, the venue-id and idempotency-key
maps, and the stream of published OrderStateChange events (oldest first). -/
structure OrderManagerState where
  orders : ℕ → Option Order
  venueIdMap : String → Option ℕ
  idempotencyMap : String → Option ℕ
  events : List OrderStateChange

/-- publishStateChange: append an OrderStateChange to the bus stream. -/
def publishStateChange (st : OrderManagerState) (order : Order)
    (prev : Option OrderStatus) (next : OrderStatus) : OrderManagerState :=
  { st with events := st.events ++ [⟨order, prev, next⟩] }

/-- updateStatus: set the order's status and publish the transition; a
missing id is a silent no-op as in the source. -/
def updateStatus (st : OrderManagerState) (internalId : ℕ)
    (newStatus : OrderStatus) : OrderManagerState :=
  match st.orders internalId with
  | none => st
  | some order =>
    let order1 := { order with status := newStatus }
    let st1 := { st with orders := fun k =>
        if k = internalId then some order1 else st.orders k }
    publishStateChange st1 order1 (some order.status) newStatus

/-- Result of SubmitOrder: the returned order (none together with isError
models the Go (nil, err) return), whether PlaceOrder was invoked on the
venue gateway, and the manager state afterwards. -/
structure SubmitResult where
  returned : Option Order
  isError : Bool
  venueCalled : Bool
  state : OrderManagerState

/-- Order record created by SubmitOrder from the request, in PENDING_NEW. -/
def newOrderFromReq (req : OrderRequest) : Order :=
  { internalId := req.internalId, venueId := "", signalId := req.signalId,
    venue := req.venue, symbol := req.symbol, side := req.side,
    orderType := req.orderType, price := req.price, size := req.size,
    filledSize := 0, avgFillPrice := 0, status := OrderStatus.pendingNew }

/-- SubmitOrder. The gateways map yields, for a known venue, the venue's
PlaceOrder behaviour as a function from the request to an error-or-ack. -/
def submitOrder (gateways : String → Option (OrderRequest → Except Unit OrderAck))
    (st : OrderManagerState) (req : OrderRequest) : SubmitResult :=
  if (st.idempotencyMap req.idempotencyKey).isSome ∧ req.idempotencyKey ≠ "" then
    { returned := (st.idempotencyMap req.idempotencyKey).bind st.orders,
      isError := false, venueCalled := false, state := st }
  else
    let order : Order := newOrderFromReq req
    let st1 := { st with
      orders := fun k => if k = req.internalId then some order else st.orders k,
      idempotencyMap := fun k =>
        if req.idempotencyKey ≠ "" ∧ k = req.idempotencyKey then some req.internalId
        else st.idempotencyMap k }
    let st2 := publishStateChange st1 order none OrderStatus.pendingNew
    match gateways req.venue with
    | none =>
      { returned := none, isError := true, venueCalled := false,
        state := updateStatus st2 req.internalId OrderStatus.submitFailed }
    | some place =>
      let st3 := updateStatus st2 req.internalId OrderStatus.submitted
      match place req with
      | Except.error _ =>
        { returned := none, isError := true, venueCalled := true,
          state := updateStatus st3 req.internalId OrderStatus.submitFailed }
      | Except.ok ack =>
        let order3 := { order with venueId := ack.venueId, status := ack.status }
        let st4 := { st3 with
          orders := fun k => if k = req.internalId then some order3 else st3.orders k,
          venueIdMap := fun k =>
            if k = ack.venueId then some req.internalId else st3.venueIdMap k }
        let st5 := publishStateChange st4 order3 (some OrderStatus.submitted) ack.status
        { returned := some order3, isError := false, venueCalled := true, state := st5 }

/-- Result of CancelOrder: Go error-ness, whether the venue gateway's
CancelOrder was invoked, and the state afterwards. -/
structure CancelResult where
  isError : Bool
  venueCalled : Bool
  state : OrderManagerState

/-- CancelOrder. For a known venue the gateways map yields the venue's
CancelOrder behaviour: true on success, false on error. -/
def cancelOrder (gateways : String → Option (String → Bool))
    (st : OrderManagerState) (internalId : ℕ) : CancelResult :=
  match st.orders internalId with
  | none => { isError := true, venueCalled := false, state := st }
  | some order =>
    match gateways order.venue with
    | none => { isError := true, venueCalled := false, state := st }
    | some venueCancel =>
      if venueCancel order.venueId then
        { isError := false, venueCalled := true,
          state := updateStatus st internalId OrderStatus.cancelled }
      else { isError := true, venueCalled := true, state := st }

/-- UpdateOrderFill: record filled size / average price, move to FILLED when
filled ≥ requested, to PARTIAL_FILL when 0 < filled, publish on change. -/
def updateOrderFill (st : OrderManagerState) (internalId : ℕ)
    (filledSize avgPrice : ℚ) : OrderManagerState :=
  match st.orders internalId with
  | none => st
  | some order =>
    let prevStatus := order.status
    let newStatus :=
      if filledSize ≥ order.size then OrderStatus.filled
      else if 0 < filledSize then OrderStatus.partFill
      else prevStatus
    let order1 := { order with
      filledSize := filledSize, avgFillPrice := avgPrice, status := newStatus }
    let st1 := { st with orders := fun k =>
        if k = internalId then some order1 else st.orders k }
    if prevStatus ≠ newStatus then publishStateChange st1 order1 (some prevStatus) newStatus
    else st1

/-! ### Market-data service (internal/marketdata) -/

structure OrderBookDelta where
  venue : String
  symbol : String
  bids : List PriceLevel
  asks : List PriceLevel
  sequence : ℕ
deriving DecidableEq

/-- Market-data service state: books and last-update times keyed by
"venue:symbol"; timestamps are milliseconds as ℤ. -/
structure MDState where
  books : String → Option OrderBookSnapshot
  lastUpdate : String → Option ℤ

/-- bookKey: "venue:symbol". -/
def bookKey (venue symbol : String) : String := venue ++ ":" ++ symbol

/-- One insertion step of the source's in-place insertion sort: the new
level moves left past every level it strictly beats. -/
def insertLevel (descending : Bool) (lv : PriceLevel) : List PriceLevel → List PriceLevel
  | [] => [lv]
  | x :: xs =>
    if (if descending then x.price < lv.price else lv.price < x.price) then lv :: x :: xs
    else x :: insertLevel descending lv xs

/-- sortLevels: stable insertion sort by price, descending for bids and
ascending for asks. -/
def sortLevels (descending : Bool) (levels : List PriceLevel) : List PriceLevel :=
  levels.foldl (fun acc lv => insertLevel descending lv acc) []

/-- One delta merge step: remove the first level with the delta's price on
zero size, update it on non-zero size, else append the new level. -/
def applyOneDelta : List PriceLevel → PriceLevel → List PriceLevel
  | [], d => if d.size = 0 then [] else [d]
  | l :: ls, d =>
    if l.price = d.price then
      if d.size = 0 then ls else { l with size := d.size } :: ls
    else l :: applyOneDelta ls d

/-- applyLevelDeltas: merge every delta level then re-sort. -/
def applyLevelDeltas (levels deltas : List PriceLevel) (descending : Bool) : List PriceLevel :=
  sortLevels descending (deltas.foldl applyOneDelta levels)

/-- ApplyDelta: create the book on first contact, merge bid and ask deltas,
adopt the delta's sequence number, refresh the last-update time, and
publish the updated snapshot (the second component). -/
def applyDelta (now : ℤ) (st : MDState) (delta : OrderBookDelta) :
    MDState × OrderBookSnapshot :=
  let key := bookKey delta.venue delta.symbol
  let book :=
    match st.books key with
    | some b => b
    | none =>
      { venue := delta.venue, symbol := delta.symbol, bids := [], asks := [], sequence := 0 }
  let book1 := { book with
    bids := applyLevelDeltas book.bids delta.bids true,
    asks := applyLevelDeltas book.asks delta.asks false,
    sequence := delta.sequence }
  ({ books := fun k => if k = key then some book1 else st.books k,
     lastUpdate := fun k => if k = key then some now else st.lastUpdate k }, book1)

/-- IsDataBlocked: a missing key is blocked; otherwise blocked when the age
exceeds the block threshold. -/
def isDataBlocked (blockDurationMs : ℤ) (now : ℤ) (st : MDState)
    (venue symbol : String) : Bool :=
  match st.lastUpdate (bookKey venue symbol) with
  | none => true
  | some t => now - t > blockDurationMs

/-! ### Fill simulator (internal/gateway/simulated/fillsim.go) -/

structure SimulatedFill where
  fillPrice : ℚ
  fillSize : ℚ
  fee : ℚ
  latencyMs : ℤ
  status : OrderStatus
deriving DecidableEq

structure FillSimConfig where
  latencyMs : ℤ
  rejectRatePct : ℚ
  makerFeeBps : ℚ
  takerFeeBps : ℚ
deriving DecidableEq

/-- Level walk of simulateMarketFill: accumulate (total cost, total filled)
consuming min(remaining, level size) per level until nothing remains. -/
def marketWalk : List PriceLevel → ℚ → ℚ × ℚ
  | [], _ => (0, 0)
  | level :: rest, remaining =>
    if remaining = 0 then (0, 0)
    else
      let fillAtLevel := min remaining level.size
      let next := marketWalk rest (remaining - fillAtLevel)
      (fillAtLevel * level.price + next.1, fillAtLevel + next.2)

/-- simulateMarketFill: returns (average price, total filled); (0, 0) when
nothing fills. -/
def simulateMarketFill (levels : List PriceLevel) (size : ℚ) : ℚ × ℚ :=
  let w := marketWalk levels size
  if w.2 = 0 then (0, 0) else (w.1 / w.2, w.2)

/-- Fee and status computation shared by the filled paths of SimulateFill. -/
def finishFill (cfg : FillSimConfig) (orderSize : ℚ) (feeBps : ℚ)
    (priceAndSize : ℚ × ℚ) : SimulatedFill :=
  let fee := priceAndSize.1 * priceAndSize.2 * feeBps / 10000
  let status :=
    if priceAndSize.2 < orderSize then OrderStatus.partFill else OrderStatus.filled
  { fillPrice := priceAndSize.1, fillSize := priceAndSize.2, fee := fee,
    latencyMs := cfg.latencyMs, status := status }

/-- Rejected SimulatedFill (zero fields except latency). -/
def rejectedFill (cfg : FillSimConfig) : SimulatedFill :=
  { fillPrice := 0, fillSize := 0, fee := 0, latencyMs := cfg.latencyMs,
    status := OrderStatus.rejected }

/-- SimulateFill. The PRNG draw (rng.Float64(), in [0,1)) is the draw
parameter; the draw stream is fully determined by the seed. -/
def simulateFill (cfg : FillSimConfig) (order : OrderRequest)
    (book : Option OrderBookSnapshot) (draw : ℚ) : SimulatedFill :=
  if cfg.rejectRatePct > 0 ∧ draw * 100 < cfg.rejectRatePct then rejectedFill cfg
  else
    match book with
    | none => rejectedFill cfg
    | some b =>
      match order.orderType with
      | OrderType.market =>
        if order.side = Side.buy then
          match b.asks with
          | [] => rejectedFill cfg
          | _ :: _ => finishFill cfg order.size cfg.takerFeeBps (simulateMarketFill b.asks order.size)
        else
          match b.bids with
          | [] => rejectedFill cfg
          | _ :: _ => finishFill cfg order.size cfg.takerFeeBps (simulateMarketFill b.bids order.size)
      | OrderType.limit =>
        if order.side = Side.buy then
          match b.asks with
          | [] => rejectedFill cfg
          | bestAsk :: _ =>
            if order.price < bestAsk.price then
              { fillPrice := order.price, fillSize := 0, fee := 0,
                latencyMs := cfg.latencyMs, status := OrderStatus.acknowledged }
            else finishFill cfg order.size cfg.makerFeeBps (simulateMarketFill b.asks order.size)
        else
          match b.bids with
          | [] => rejectedFill cfg
          | bestBid :: _ =>
            if bestBid.price < order.price then
              { fillPrice := order.price, fillSize := 0, fee := 0,
                latencyMs := cfg.latencyMs, status := OrderStatus.acknowledged }
            else finishFill cfg order.size cfg.makerFeeBps (simulateMarketFill b.bids order.size)

/-- SimulateFill with the PRNG state made explicit: the seed determines the
draw stream; each call consumes the draw at the current index and advances
the index. -/
def simulateFillSeeded (cfg : FillSimConfig) (order : OrderRequest)
    (book : Option OrderBookSnapshot) (stream : ℕ → ℚ) (idx : ℕ) :
    SimulatedFill × ℕ :=
  (simulateFill cfg order book (stream idx), idx + 1)

/-! ### Triangular arbitrage module (internal/strategy/triarb.go) -/

structure TriangularLeg where
  symbol : String
  side : Side
deriving DecidableEq

/-- TriangularPath; the source fixes exactly three legs ([3]TriangularLeg),
embedded as a list whose intended length is three. -/
structure TriangularPath where
  venue : String
  legs : List TriangularLeg
deriving DecidableEq

/-- Cost-model oracle: EstimateCost(venue, symbol, side, size, orderType),
none for the Go error return. -/
def CostOracle : Type :=
  String → String → Side → ℚ → OrderType → Option CostEstimate

/-- Leg loop of computeEdge: divide the accumulator by the fixed best-ask
price on a buy leg (none on a missing side or zero fixed price, which the
caller turns into edge 0), multiply by the fixed best-bid price on a sell
leg. -/
def computeEdgeAux (books : String → Option OrderBookSnapshot) :
    List TriangularLeg → ℤ → Option ℤ
  | [], acc => some acc
  | leg :: rest, acc =>
    match books leg.symbol with
    | none => none
    | some book =>
      if leg.side = Side.buy then
        match book.bestAsk with
        | none => none
        | some ask =>
          let price := toFixed ask.price
          if price = 0 then none
          else computeEdgeAux books rest (fixedDiv acc price)
      else
        match book.bestBid with
        | none => none
        | some bid => computeEdgeAux books rest (fixedMul acc (toFixed bid.price))

/-- computeEdge: implied compound rate starting at ToFixed(1); the result
is implied − 1 when implied exceeds 1 and 0 otherwise (any early return in
the leg loop also yields 0). -/
def computeEdge (books : String → Option OrderBookSnapshot)
    (path : TriangularPath) : ℤ :=
  match computeEdgeAux books path.legs (toFixed 1) with
  | none => 0
  | some implied =>
    if toFixed 1 < implied then fixedSub implied (toFixed 1) else 0

/-- allBooksAvailable: every leg's symbol has a cached book. -/
def allBooksAvailable (books : String → Option OrderBookSnapshot)
    (path : TriangularPath) : Bool :=
  path.legs.all (fun leg => (books leg.symbol).isSome)

/-- Leg construction loop of buildSignal: best ask for buys, best bid for
sells, LIMIT orders at the venue best price and size (nil on a missing
side). -/
def buildLegs (books : String → Option OrderBookSnapshot) :
    List TriangularLeg → Option (List LegSpec)
  | [] => some []
  | leg :: rest =>
    match books leg.symbol with
    | none => none
    | some book =>
      match (if leg.side = Side.buy then book.bestAsk else book.bestBid) with
      | none => none
      | some lv =>
        match buildLegs books rest with
        | none => none
        | some tail =>
          some ({ symbol := leg.symbol, side := leg.side,
                  instrumentType := InstrumentType.spot, price := lv.price,
                  size := lv.size, orderType := OrderType.limit } :: tail)

/-- buildSignal: size every leg to the thinnest level's quote notional,
request a cost estimate for the first leg, and emit only when the net edge
(edge bps minus total cost bps) is strictly positive. -/
def buildSignal (cost : CostOracle) (venue : String)
    (books : String → Option OrderBookSnapshot) (path : TriangularPath)
    (edgeBps : ℤ) : Option TradeSignal :=
  match buildLegs books path.legs with
  | none => none
  | some legs0 =>
    let minSize := legs0.foldl
      (fun m l => if l.price * l.size < m then l.price * l.size else m) 999999999
    let legs1 := legs0.map
      (fun l => if 0 < l.price then { l with size := minSize / l.price } else l)
    match legs1.head? with
    | none => none
    | some leg0 =>
      match cost venue leg0.symbol leg0.side leg0.size OrderType.limit with
      | none => none
      | some costEst =>
        let edgeDecimal := fixedToDecimal edgeBps * 10000
        let netEdge := edgeDecimal - costEst.totalBps
        if netEdge ≤ 0 then none
        else
          some { strategy := StrategyType.triArb, venue := venue, legs := legs1,
                 expectedEdgeBps := netEdge, costEstimate := costEst,
                 confidence := costEst.confidence }

/-- Per-path body of evaluate: skip unless all three books are cached; a
path is a candidate only when the edge exceeds FixedFromBps(minEdgeBps),
and the emitted signal (if any) comes from buildSignal. -/
def evaluatePath (minEdgeBps : ℤ) (cost : CostOracle) (venue : String)
    (books : String → Option OrderBookSnapshot) (path : TriangularPath) :
    Option TradeSignal :=
  if allBooksAvailable books path then
    let edgeBps := computeEdge books path
    let threshold := fixedFromBps minEdgeBps
    if threshold < edgeBps then buildSignal cost venue books path edgeBps else none
  else none

/-! ### Helper lemmas -/

lemma wrap64_eq_of_range (x : ℤ) (h1 : -(2 ^ 63) ≤ x) (h2 : x < 2 ^ 63) :
    wrap64 x = x := by
  unfold wrap64
  have h3 : (0 : ℤ) ≤ x + 2 ^ 63 := by linarith
  have h4 : x + 2 ^ 63 < 2 ^ 64 := by norm_num; linarith
  rw [Int.emod_eq_of_lt h3 h4]
  ring

lemma abs_sub_ratTrunc_lt_one (q : ℚ) : |q - (ratTrunc q : ℚ)| < 1 := by
  unfold ratTrunc
  split
  · rw [abs_of_nonneg (by simp [Int.floor_le q])]
    have := Int.lt_floor_add_one q
    linarith
  · rw [abs_sub_comm, abs_of_nonneg (by simp [Int.le_ceil q])]
    have := Int.ceil_lt_add_one q
    linarith

lemma ratTrunc_range (q : ℚ) (h1 : -(2 ^ 63) ≤ q) (h2 : q ≤ 2 ^ 63 - 1) :
    -(2 ^ 63) ≤ ratTrunc q ∧ ratTrunc q < 2 ^ 63 := by
  unfold ratTrunc
  split
  · constructor
    · have h0 : (0 : ℤ) ≤ ⌊q⌋ := Int.floor_nonneg.mpr (by assumption)
      linarith
    · have hle : (⌊q⌋ : ℚ) ≤ 2 ^ 63 - 1 := le_trans (Int.floor_le q) h2
      have : (⌊q⌋ : ℤ) ≤ 2 ^ 63 - 1 := by exact_mod_cast hle
      linarith
  · constructor
    · have hge : (-(2 ^ 63) : ℚ) ≤ (⌈q⌉ : ℚ) := le_trans h1 (Int.le_ceil q)
      exact_mod_cast hge
    · have hneg : ¬ (0 : ℚ) ≤ q := by assumption
      have h0 : ⌈q⌉ ≤ 0 := by
        rw [Int.ceil_le]
        push_cast
        linarith [lt_of_not_le hneg]
      linarith

/-! ### Claim C9: fixed-point round-trip accuracy -/

/-- C9: for every decimal d whose scaled value d·10⁹ fits in a signed
64-bit integer, the round-trip loss through fixed point is at most 10⁻⁹:
|d − ToFixed(d).ToDecimal()| ≤ 10⁻⁹. -/
theorem fixed_roundtrip_loss_le (d : ℚ)
    (h1 : -(2 ^ 63) ≤ d * (pricePrecision : ℚ))
    (h2 : d * (pricePrecision : ℚ) ≤ 2 ^ 63 - 1) :
    |d - fixedToDecimal (toFixed d)| ≤ 1 / (pricePrecision : ℚ) := by
  obtain ⟨hr1, hr2⟩ := ratTrunc_range (d * (pricePrecision : ℚ)) h1 h2
  unfold toFixed fixedToDecimal
  rw [wrap64_eq_of_range _ hr1 hr2]
  have hS : (0 : ℚ) < (pricePrecision : ℚ) := by norm_num [pricePrecision]
  have key : d - ((ratTrunc (d * (pricePrecision : ℚ)) : ℤ) : ℚ) / (pricePrecision : ℚ)
      = (d * (pricePrecision : ℚ) - (ratTrunc (d * (pricePrecision : ℚ)) : ℚ))
        / (pricePrecision : ℚ) := by
    field_simp
  rw [key, abs_div, abs_of_pos hS]
  have h5 := le_of_lt (abs_sub_ratTrunc_lt_one (d * (pricePrecision : ℚ)))
  gcongr

/-- Witness for C9 at d = 123456789 / 100000. -/
theorem fixed_roundtrip_loss_le_witness :
    (-(2 ^ 63) ≤ (123456789 / 100000 : ℚ) * (pricePrecision : ℚ)) ∧
    ((123456789 / 100000 : ℚ) * (pricePrecision : ℚ) ≤ 2 ^ 63 - 1) ∧
    |(123456789 / 100000 : ℚ) - fixedToDecimal (toFixed (123456789 / 100000 : ℚ))|
      ≤ 1 / (pricePrecision : ℚ) :=
  ⟨by norm_num [pricePrecision], by norm_num [pricePrecision],
   fixed_roundtrip_loss_le (123456789 / 100000 : ℚ)
     (by norm_num [pricePrecision]) (by norm_num [pricePrecision])⟩

/-! ### Claim C10: total division and zero-price short circuit -/

lemma computeEdgeAux_zeroPrice_none (books : String → Option OrderBookSnapshot)
    (leg : TriangularLeg) (book : OrderBookSnapshot) (ask : PriceLevel)
    (post : List TriangularLeg)
    (hb : books leg.symbol = some book) (hside : leg.side = Side.buy)
    (hask : book.bestAsk = some ask) (hp : toFixed ask.price = 0) :
    ∀ (pre : List TriangularLeg) (acc : ℤ),
      computeEdgeAux books (pre ++ leg :: post) acc = none := by
  intro pre
  induction pre with
  | nil =>
    intro acc
    simp [computeEdgeAux, hb, hside, hask, hp]
  | cons p ps ih =>
    intro acc
    simp only [List.cons_append, computeEdgeAux]
    cases hbp : books p.symbol with
    | none => rfl
    | some bk =>
      by_cases hsp : p.side = Side.buy
      · simp only [hsp, if_pos rfl]
        cases hak : bk.bestAsk with
        | none => rfl
        | some a =>
          by_cases hz : toFixed a.price = 0
          · simp [hz]
          · simp [hz, ih]
      · simp only [if_neg hsp]
        cases hbk : bk.bestBid with
        | none => rfl
        | some b0 => simp [ih]

/-- C10: FixedPrice division is total with a zero divisor mapped to 0, and
in computeEdge a buy leg whose best-ask price converts to fixed-point 0
short-circuits the whole path to edge 0, so the zero-divisor branch of Div
is never exercised with a meaningful operand during signal evaluation. -/
theorem fixedDiv_total_edge_shortcircuit :
    (∀ f : ℤ, fixedDiv f 0 = 0) ∧
    (∀ (books : String → Option OrderBookSnapshot) (path : TriangularPath)
       (pre post : List TriangularLeg) (leg : TriangularLeg)
       (book : OrderBookSnapshot) (ask : PriceLevel),
       path.legs = pre ++ leg :: post → leg.side = Side.buy →
       books leg.symbol = some book → book.bestAsk = some ask →
       toFixed ask.price = 0 → computeEdge books path = 0) := by
  constructor
  · intro f
    simp [fixedDiv]
  · intro books path pre post leg book ask hlegs hside hb hask hp
    unfold computeEdge
    rw [hlegs, computeEdgeAux_zeroPrice_none books leg book ask post hb hside hask hp]

/-- Witness for C10: explicit zero divisor, and a concrete path whose
second leg is a buy with best-ask price 0. -/
theorem fixedDiv_total_edge_shortcircuit_witness :
    fixedDiv 7 0 = 0 ∧
    computeEdge
      (fun s => if s = "ETH/BTC" then
          some { venue := "kcex", symbol := "ETH/BTC", bids := [],
                 asks := [{ price := 0, size := 1 }], sequence := 1 }
        else if s = "BTC/USDT" then
          some { venue := "kcex", symbol := "BTC/USDT",
                 bids := [{ price := 50000, size := 1 }],
                 asks := [{ price := 50000, size := 1 }], sequence := 1 }
        else none)
      { venue := "kcex", legs := [⟨"BTC/USDT", Side.buy⟩, ⟨"ETH/BTC", Side.buy⟩] } = 0 := by
  constructor
  · exact fixedDiv_total_edge_shortcircuit.1 7
  · refine fixedDiv_total_edge_shortcircuit.2 _ _ [⟨"BTC/USDT", Side.buy⟩] []
      ⟨"ETH/BTC", Side.buy⟩
      { venue := "kcex", symbol := "ETH/BTC", bids := [],
        asks := [{ price := 0, size := 1 }], sequence := 1 }
      { price := 0, size := 1 } rfl rfl (by norm_num) rfl ?_
    norm_num [toFixed, ratTrunc, wrap64]

/-! ### Claim C1: validation check order -/

/-- C1: ValidateSignal evaluates its checks in the fixed order (kill
switch, HALTED mode, per-leg data blocked, per-asset position cap,
per-venue gross notional, daily PnL, global / venue / symbol open-order
counts), short-circuits with the enumerated reason of the first failing
check, and approves exactly when every check passes. -/
theorem validateSignal_fixed_order (cfg : RiskConfig)
    (blocked : String → String → Bool) (st : RiskManagerState)
    (sig : TradeSignal) :
    validateSignal cfg blocked st sig = validateSignalSpec cfg blocked st sig := by
  unfold validateSignal validateSignalSpec riskCheckResults
  simp only [List.findSome?_cons, List.findSome?_nil, id]
  by_cases h1 : st.killSwitch.active
  · simp [h1]
  · by_cases h2 : st.mode = RiskMode.halted
    · simp [h1, h2]
    · by_cases h3 : sig.legs.any (fun leg => blocked sig.venue leg.symbol)
      · simp [h1, h2, h3]
      · by_cases h4 : sig.legs.any (positionCheckFail cfg st sig.venue)
        · simp [h1, h2, h3, h4]
        · by_cases h5 : notionalCheckFail cfg st sig
          · simp [h1, h2, h3, h4, h5]
          · by_cases h6 : st.dailyRealizedPnL + st.dailyUnrealizedPnL ≤ -cfg.dailyLossCapUSDT
            · simp [h1, h2, h3, h4, h5, h6]
            · by_cases h7 : st.openOrderCounts.global ≥ cfg.maxOpenOrders.global
              · simp [h1, h2, h3, h4, h5, h6, h7]
              · by_cases h8 : st.openOrderCounts.perVenue sig.venue ≥ cfg.maxOpenOrders.perVenue
                · simp [h1, h2, h3, h4, h5, h6, h7, h8]
                · by_cases h9 : sig.legs.any (fun leg =>
                      st.openOrderCounts.perSymbol leg.symbol ≥ cfg.maxOpenOrders.perSymbol)
                  · simp [h1, h2, h3, h4, h5, h6, h7, h8, h9]
                  · simp [h1, h2, h3, h4, h5, h6, h7, h8, h9]

/-! ### Claim C2: PnL breach activates the kill switch and halts -/

lemma checkPnLLimits_breach (cfg : RiskConfig) (st : RiskManagerState)
    (h : st.dailyRealizedPnL + st.dailyUnrealizedPnL ≤ -cfg.dailyLossCapUSDT) :
    checkPnLLimits cfg st =
      killSwitchActivate { st with mode := RiskMode.halted }
        (breachReason (st.dailyRealizedPnL + st.dailyUnrealizedPnL)) := by
  simp [checkPnLLimits, h]

/-- C2: whenever total daily PnL (realized + unrealized) reaches −cap or
below — through the realized-PnL update on a fill (OnOrderFill) or through
the periodic PnL check (checkPnLLimits) — the mode becomes HALTED and the
kill switch is activated with a breach reason and persisted to the durable
store; and any signal validated while the kill switch is active is
rejected with reason kill_switch_active. -/
theorem pnl_breach_halts_and_rejects (cfg : RiskConfig) :
    (∀ st : RiskManagerState,
      st.dailyRealizedPnL + st.dailyUnrealizedPnL ≤ -cfg.dailyLossCapUSDT →
      (checkPnLLimits cfg st).mode = RiskMode.halted ∧
      (checkPnLLimits cfg st).killSwitch =
        ⟨true, breachReason (st.dailyRealizedPnL + st.dailyUnrealizedPnL)⟩ ∧
      (checkPnLLimits cfg st).persistedKillSwitch =
        some ⟨true, breachReason (st.dailyRealizedPnL + st.dailyUnrealizedPnL)⟩) ∧
    (∀ (st : RiskManagerState) (order : Order) (pnl : ℚ),
      st.dailyRealizedPnL + pnl + st.dailyUnrealizedPnL ≤ -cfg.dailyLossCapUSDT →
      (onOrderFill cfg st order pnl).mode = RiskMode.halted ∧
      (onOrderFill cfg st order pnl).killSwitch =
        ⟨true, breachReason (st.dailyRealizedPnL + pnl + st.dailyUnrealizedPnL)⟩ ∧
      (onOrderFill cfg st order pnl).persistedKillSwitch =
        some ⟨true, breachReason (st.dailyRealizedPnL + pnl + st.dailyUnrealizedPnL)⟩) ∧
    (∀ (blocked : String → String → Bool) (st : RiskManagerState) (sig : TradeSignal),
      st.killSwitch.active = true →
      validateSignal cfg blocked st sig = ⟨false, some RejectionReason.killSwitch⟩) := by
  refine ⟨?_, ?_, ?_⟩
  · intro st h
    rw [checkPnLLimits_breach cfg st h]
    simp [killSwitchActivate]
  · intro st order pnl h
    unfold onOrderFill
    cases hpos : st.positions ⟨order.venue, extractAsset order.symbol⟩ with
    | none =>
      simp only [hpos]
      rw [checkPnLLimits_breach _ _ (by simpa using h)]
      simp [killSwitchActivate]
    | some pos =>
      simp only [hpos]
      rw [checkPnLLimits_breach _ _ (by simpa using h)]
      simp [killSwitchActivate]
  · intro blocked st sig h
    simp [validateSignal, h]

def c2cfg : RiskConfig :=
  { maxPosition := fun _ => none, maxNotionalPerVenue := fun _ => none,
    dailyLossCapUSDT := 12500, warningThresholdPct := 80,
    maxOpenOrders := ⟨120, 70, 20⟩ }

def c2st : RiskManagerState :=
  { mode := RiskMode.normal, positions := fun _ => none,
    openOrderCounts := ⟨0, fun _ => 0, fun _ => 0⟩,
    venueNotionals := fun _ => 0, dailyRealizedPnL := 0, dailyUnrealizedPnL := 0,
    killSwitch := ⟨false, ""⟩, persistedKillSwitch := none }

def c2order : Order :=
  { internalId := 1, venueId := "v1", signalId := 1, venue := "kcex",
    symbol := "BTC/USDT", side := Side.sell, orderType := OrderType.limit,
    price := 50000, size := 1, filledSize := 1, avgFillPrice := 49500,
    status := OrderStatus.filled }

def c2sig : TradeSignal :=
  { strategy := StrategyType.triArb, venue := "kcex", legs := [],
    expectedEdgeBps := 1, costEstimate := ⟨0, 0, none, 0, 1⟩, confidence := 1 }

/-- Witness for C2: a realized-PnL event of −13000 against a daily cap of
12500 halts the system and a subsequent signal is rejected with reason
kill_switch_active. -/
theorem pnl_breach_halts_and_rejects_witness :
    (c2st.dailyRealizedPnL + (-13000 : ℚ) + c2st.dailyUnrealizedPnL
      ≤ -c2cfg.dailyLossCapUSDT) ∧
    (onOrderFill c2cfg c2st c2order (-13000)).mode = RiskMode.halted ∧
    (onOrderFill c2cfg c2st c2order (-13000)).killSwitch.active = true ∧
    validateSignal c2cfg (fun _ _ => false)
      (onOrderFill c2cfg c2st c2order (-13000)) c2sig
      = ⟨false, some RejectionReason.killSwitch⟩ := by
  have hbr : c2st.dailyRealizedPnL + (-13000 : ℚ) + c2st.dailyUnrealizedPnL
      ≤ -c2cfg.dailyLossCapUSDT := by norm_num [c2st, c2cfg]
  have hmain := (pnl_breach_halts_and_rejects c2cfg).2.1 c2st c2order (-13000) hbr
  have hact : (onOrderFill c2cfg c2st c2order (-13000)).killSwitch.active = true := by
    rw [hmain.2.1]
  exact ⟨hbr, hmain.1, hact,
    (pnl_breach_halts_and_rejects c2cfg).2.2 (fun _ _ => false) _ c2sig hact⟩

/-! ### Claim C5: market-order fill simulation -/

/-- Total liquidity on one book side. -/
def availableSize (levels : List PriceLevel) : ℚ := (levels.map PriceLevel.size).sum

/-- Specification-side level-by-level consumption: each level contributes
min(remaining, level size). -/
def consumedSizes : List PriceLevel → ℚ → List ℚ
  | [], _ => []
  | l :: ls, remaining =>
    let c := min remaining l.size
    c :: consumedSizes ls (remaining - c)

/-- Specification-side cost of the consumed levels (size-weighted sum of
prices). -/
def consumedCost : List PriceLevel → ℚ → ℚ
  | [], _ => 0
  | l :: ls, remaining =>
    let c := min remaining l.size
    c * l.price + consumedCost ls (remaining - c)

lemma availableSize_nonneg (levels : List PriceLevel)
    (h : ∀ l ∈ levels, 0 ≤ l.size) : 0 ≤ availableSize levels := by
  apply List.sum_nonneg
  intro x hx
  simp only [List.mem_map] at hx
  obtain ⟨l, hl, rfl⟩ := hx
  exact h l hl

lemma consumedCost_zero (levels : List PriceLevel)
    (h : ∀ l ∈ levels, 0 ≤ l.size) : consumedCost levels 0 = 0 := by
  induction levels with
  | nil => rfl
  | cons l ls ih =>
    have hl0 : 0 ≤ l.size := h l (by simp)
    have hls : ∀ x ∈ ls, 0 ≤ x.size := fun x hx => h x (by simp [hx])
    simp [consumedCost, min_eq_left hl0, ih hls]

lemma marketWalk_eq (levels : List PriceLevel) :
    ∀ size : ℚ, 0 ≤ size → (∀ l ∈ levels, 0 ≤ l.size) →
    marketWalk levels size = (consumedCost levels size, min size (availableSize levels)) := by
  induction levels with
  | nil =>
    intro size hs _
    simp [marketWalk, consumedCost, availableSize, min_eq_right hs]
  | cons l ls ih =>
    intro size hs hl
    have hl0 : 0 ≤ l.size := hl l (by simp)
    have hls : ∀ x ∈ ls, 0 ≤ x.size := fun x hx => hl x (by simp [hx])
    have havail : 0 ≤ availableSize ls := availableSize_nonneg ls hls
    by_cases hz : size = 0
    · subst hz
      have havail0 : 0 ≤ availableSize (l :: ls) := availableSize_nonneg _ hl
      simp [marketWalk, consumedCost_zero _ hl, min_eq_left havail0]
    · have hrem : 0 ≤ size - min size l.size := by
        have := min_le_left size l.size
        linarith
      simp only [marketWalk, if_neg hz]
      rw [ih (size - min size l.size) hrem hls]
      have hsum : availableSize (l :: ls) = l.size + availableSize ls := by
        simp [availableSize]
      refine Prod.ext ?_ ?_
      · simp [consumedCost]
      · simp only [hsum, consumedCost]
        rcases le_total size l.size with hc | hc
        · rw [min_eq_left hc]
          have h1 : min (size - size) (availableSize ls) = 0 := by
            simp [min_eq_left havail]
          rw [sub_self] at h1 ⊢
          rw [h1, min_eq_left (by linarith : size ≤ l.size + availableSize ls)]
          ring
        · rw [min_eq_right hc]
          rcases le_total (size - l.size) (availableSize ls) with hd | hd
          · rw [min_eq_left hd, min_eq_left (by linarith : size ≤ l.size + availableSize ls)]
            ring
          · rw [min_eq_right hd, min_eq_right (by linarith : l.size + availableSize ls ≤ size)]

/-- C5: a market order against a present book walks the opposite side: the
fill size is min(requested, total opposite liquidity); the fill price is
the size-weighted average of the consumed levels; the status is FILLED
exactly when the whole requested size is consumed and PARTIAL_FILL
otherwise; a nil book, and an empty opposite side, yield REJECTED. -/
theorem simulateFill_market_order (cfg : FillSimConfig) (order : OrderRequest)
    (b : OrderBookSnapshot) (draw : ℚ)
    (hmkt : order.orderType = OrderType.market)
    (hnorej : ¬ (cfg.rejectRatePct > 0 ∧ draw * 100 < cfg.rejectRatePct))
    (hsize : 0 ≤ order.size)
    (hlv : ∀ l ∈ (if order.side = Side.buy then b.asks else b.bids), 0 ≤ l.size)
    (hne : (if order.side = Side.buy then b.asks else b.bids) ≠ []) :
    (∀ draw2, (simulateFill cfg order none draw2).status = OrderStatus.rejected) ∧
    (∀ (b2 : OrderBookSnapshot) (draw2 : ℚ),
      (if order.side = Side.buy then b2.asks else b2.bids) = [] →
      (simulateFill cfg order (some b2) draw2).status = OrderStatus.rejected) ∧
    ((simulateFill cfg order (some b) draw).fillSize =
      min order.size (availableSize (if order.side = Side.buy then b.asks else b.bids))) ∧
    ((simulateFill cfg order (some b) draw).fillSize ≠ 0 →
      (simulateFill cfg order (some b) draw).fillPrice =
        consumedCost (if order.side = Side.buy then b.asks else b.bids) order.size
          / (simulateFill cfg order (some b) draw).fillSize) ∧
    ((simulateFill cfg order (some b) draw).status =
      if availableSize (if order.side = Side.buy then b.asks else b.bids) < order.size
      then OrderStatus.partFill else OrderStatus.filled) := by
  have hnil : ∀ draw2, (simulateFill cfg order none draw2).status = OrderStatus.rejected := by
    intro draw2
    unfold simulateFill
    by_cases hr : cfg.rejectRatePct > 0 ∧ draw2 * 100 < cfg.rejectRatePct
    · simp [hr, rejectedFill]
    · simp [hr, rejectedFill]
  have hempty : ∀ (b2 : OrderBookSnapshot) (draw2 : ℚ),
      (if order.side = Side.buy then b2.asks else b2.bids) = [] →
      (simulateFill cfg order (some b2) draw2).status = OrderStatus.rejected := by
    intro b2 draw2 he
    unfold simulateFill
    by_cases hr : cfg.rejectRatePct > 0 ∧ draw2 * 100 < cfg.rejectRatePct
    · simp [hr, rejectedFill]
    · rw [if_neg hr]
      simp only []
      rw [hmkt]
      cases hside : order.side
      · rw [hside] at he
        simp at he
        simp [he, rejectedFill]
      · rw [hside] at he
        simp at he
        simp [he, rejectedFill]
  refine ⟨hnil, hempty, ?_⟩
  set opp := if order.side = Side.buy then b.asks else b.bids with hopp
  have havail : 0 ≤ availableSize opp := availableSize_nonneg opp hlv
  have hmain : simulateFill cfg order (some b) draw =
      finishFill cfg order.size cfg.takerFeeBps (simulateMarketFill opp order.size) := by
    unfold simulateFill
    rw [if_neg hnorej, hmkt]
    cases hside : order.side
    · simp only [hside, reduceCtorEq, if_true, if_pos rfl] at hopp ⊢
      cases hasks : b.asks with
      | nil => exact absurd (hopp.trans hasks) hne
      | cons x xs => rw [hopp, hasks]
    · simp only [hside, reduceCtorEq, if_false] at hopp ⊢
      cases hbids : b.bids with
      | nil =>
        rw [hopp] at hne
        exact absurd hbids hne
      | cons x xs => rw [hopp, hbids]
  have hsim : simulateMarketFill opp order.size =
      (if min order.size (availableSize opp) = 0 then (0, 0)
       else (consumedCost opp order.size / min order.size (availableSize opp),
             min order.size (availableSize opp))) := by
    unfold simulateMarketFill
    rw [marketWalk_eq opp order.size hsize hlv]
  rw [hmain]
  by_cases hzero : min order.size (availableSize opp) = 0
  · rw [hsim, if_pos hzero]
    have hcases : order.size = 0 ∨ (0 < order.size ∧ availableSize opp = 0) := by
      rcases eq_or_lt_of_le hsize with he | hp
      · exact Or.inl he.symm
      · right
        refine ⟨hp, ?_⟩
        rcases le_total order.size (availableSize opp) with hc | hc
        · rw [min_eq_left hc] at hzero
          exact absurd hzero.symm (ne_of_lt hp)
        · rw [min_eq_right hc] at hzero
          exact hzero
    refine ⟨by simp [finishFill, hzero], ?_, ?_⟩
    · intro hfs
      exact absurd (by simp [finishFill]) hfs
    · rcases hcases with h0 | ⟨hp, ha0⟩
      · simp [finishFill, h0, not_lt.mpr havail]
      · simp [finishFill, ha0, hp]
  · rw [hsim, if_neg hzero]
    refine ⟨by simp [finishFill], by intro _; simp [finishFill], ?_⟩
    by_cases hlt : availableSize opp < order.size
    · have hmlt : min order.size (availableSize opp) < order.size := by
        rw [min_eq_right (le_of_lt hlt)]
        exact hlt
      simp [finishFill, hlt, hmlt]
    · have hge : order.size ≤ availableSize opp := not_lt.mp hlt
      have hmge : ¬ min order.size (availableSize opp) < order.size := by
        rw [min_eq_left hge]
        exact lt_irrefl _
      simp [finishFill, hlt, hmge]

def c5cfg : FillSimConfig := ⟨0, 0, 2, 5⟩

def c5order : OrderRequest :=
  { internalId := 1, signalId := 1, venue := "kcex", symbol := "BTC/USDT",
    side := Side.buy, instrumentType := InstrumentType.spot,
    orderType := OrderType.market, price := 50000, size := 1,
    idempotencyKey := "" }

def c5book : OrderBookSnapshot :=
  { venue := "kcex", symbol := "BTC/USDT", bids := [],
    asks := [{ price := 50000, size := 3 / 10 }], sequence := 1 }

/-- Witness for C5: a market buy of size 1.0 against a single ask level
(price 50000, size 0.3) returns PARTIAL_FILL with filled size 0.3 at
price 50000. -/
theorem simulateFill_market_order_witness :
    (simulateFill c5cfg c5order (some c5book) (1 / 2)).status = OrderStatus.partFill ∧
    (simulateFill c5cfg c5order (some c5book) (1 / 2)).fillSize = 3 / 10 ∧
    (simulateFill c5cfg c5order (some c5book) (1 / 2)).fillPrice = 50000 := by
  have h := simulateFill_market_order c5cfg c5order c5book (1 / 2) rfl
    (by norm_num [c5cfg]) (by norm_num [c5order])
    (by
      intro l hl
      simp [c5order, c5book] at hl
      rw [hl]
      norm_num)
    (by simp [c5order, c5book])
  have havail : availableSize
      (if c5order.side = Side.buy then c5book.asks else c5book.bids) = 3 / 10 := by
    norm_num [availableSize, c5order, c5book]
  have hfs : (simulateFill c5cfg c5order (some c5book) (1 / 2)).fillSize = 3 / 10 := by
    rw [h.2.2.1, havail]
    norm_num [c5order]
  refine ⟨?_, hfs, ?_⟩
  · rw [h.2.2.2.2, havail]
    norm_num [c5order]
  · have hpr := h.2.2.2.1 (by rw [hfs]; norm_num)
    rw [hpr, hfs]
    norm_num [consumedCost, c5order, c5book]

/-! ### Claim C6: fill-simulator determinism -/

/-- C6: the fill simulator is deterministic given (order, book, seed). The
PRNG is a seed-determined draw stream consumed one draw per call; two runs
whose consumed draws coincide (in particular, two runs from the same seed
and stream position) produce identical SimulatedFill results. -/
theorem simulateFill_deterministic (cfg : FillSimConfig) (order : OrderRequest)
    (book : Option OrderBookSnapshot) (s t : ℕ → ℚ) (i j : ℕ)
    (h : s i = t j) :
    (simulateFillSeeded cfg order book s i).1 = (simulateFillSeeded cfg order book t j).1 := by
  simp only [simulateFillSeeded, h]

/-- Witness for C6 at a concrete configuration, order, book and draws. -/
theorem simulateFill_deterministic_witness :
    ((fun n : ℕ => (n : ℚ) / 10) 2 = (fun _ : ℕ => (1 : ℚ) / 5) 7) ∧
    (simulateFillSeeded c5cfg c5order (some c5book) (fun n : ℕ => (n : ℚ) / 10) 2).1 =
      (simulateFillSeeded c5cfg c5order (some c5book) (fun _ : ℕ => (1 : ℚ) / 5) 7).1 :=
  ⟨by norm_num,
   simulateFill_deterministic c5cfg c5order (some c5book)
     (fun n : ℕ => (n : ℚ) / 10) (fun _ : ℕ => (1 : ℚ) / 5) 2 7 (by norm_num)⟩

/-! ### Claim C7: SubmitOrder idempotency and lifecycle -/

/-- C7: SubmitOrder returns the existing order, without calling the venue
and without creating a new order, when a non-empty idempotency key already
maps to one; otherwise it creates the order in PENDING_NEW and publishes,
moves it to SUBMIT_FAILED when the venue is unknown (no venue call), else
moves it to SUBMITTED, calls the venue, adopts the acknowledgement's venue
id and status on success, and moves it to SUBMIT_FAILED on a venue error. -/
theorem submitOrder_idempotent_lifecycle
    (gateways : String → Option (OrderRequest → Except Unit OrderAck))
    (st : OrderManagerState) (req : OrderRequest) :
    (∀ id o, req.idempotencyKey ≠ "" →
      st.idempotencyMap req.idempotencyKey = some id → st.orders id = some o →
      submitOrder gateways st req =
        { returned := some o, isError := false, venueCalled := false, state := st }) ∧
    (¬ ((st.idempotencyMap req.idempotencyKey).isSome ∧ req.idempotencyKey ≠ "") →
      (gateways req.venue = none →
        (submitOrder gateways st req).returned = none ∧
        (submitOrder gateways st req).isError = true ∧
        (submitOrder gateways st req).venueCalled = false ∧
        (submitOrder gateways st req).state.orders req.internalId =
          some { newOrderFromReq req with status := OrderStatus.submitFailed } ∧
        (submitOrder gateways st req).state.events = st.events ++
          [⟨newOrderFromReq req, none, OrderStatus.pendingNew⟩,
           ⟨{ newOrderFromReq req with status := OrderStatus.submitFailed },
             some OrderStatus.pendingNew, OrderStatus.submitFailed⟩]) ∧
      (∀ place, gateways req.venue = some place →
        (∀ e, place req = Except.error e →
          (submitOrder gateways st req).returned = none ∧
          (submitOrder gateways st req).isError = true ∧
          (submitOrder gateways st req).venueCalled = true ∧
          (submitOrder gateways st req).state.orders req.internalId =
            some { newOrderFromReq req with status := OrderStatus.submitFailed } ∧
          (submitOrder gateways st req).state.events = st.events ++
            [⟨newOrderFromReq req, none, OrderStatus.pendingNew⟩,
             ⟨{ newOrderFromReq req with status := OrderStatus.submitted },
               some OrderStatus.pendingNew, OrderStatus.submitted⟩,
             ⟨{ newOrderFromReq req with status := OrderStatus.submitFailed },
               some OrderStatus.submitted, OrderStatus.submitFailed⟩]) ∧
        (∀ ack, place req = Except.ok ack →
          (submitOrder gateways st req).returned =
            some { newOrderFromReq req with venueId := ack.venueId, status := ack.status } ∧
          (submitOrder gateways st req).isError = false ∧
          (submitOrder gateways st req).venueCalled = true ∧
          (submitOrder gateways st req).state.orders req.internalId =
            some { newOrderFromReq req with venueId := ack.venueId, status := ack.status } ∧
          (submitOrder gateways st req).state.venueIdMap ack.venueId = some req.internalId ∧
          (submitOrder gateways st req).state.events = st.events ++
            [⟨newOrderFromReq req, none, OrderStatus.pendingNew⟩,
             ⟨{ newOrderFromReq req with status := OrderStatus.submitted },
               some OrderStatus.pendingNew, OrderStatus.submitted⟩,
             ⟨{ newOrderFromReq req with venueId := ack.venueId, status := ack.status },
               some OrderStatus.submitted, ack.status⟩]))) := by
  refine ⟨?_, ?_⟩
  · intro id o hk hmap ho
    unfold submitOrder
    rw [if_pos ⟨by simp [hmap], hk⟩]
    simp [hmap, ho]
  · intro hfresh
    refine ⟨?_, ?_⟩
    · intro hgw
      unfold submitOrder
      rw [if_neg hfresh]
      simp only [hgw, publishStateChange, updateStatus]
      simp [List.append_assoc, newOrderFromReq]
    · intro place hgw
      refine ⟨?_, ?_⟩
      · intro e herr
        unfold submitOrder
        rw [if_neg hfresh]
        simp only [hgw, herr, publishStateChange, updateStatus]
        simp [List.append_assoc, newOrderFromReq]
      · intro ack hok
        unfold submitOrder
        rw [if_neg hfresh]
        simp only [hgw, hok, publishStateChange, updateStatus]
        simp [List.append_assoc, newOrderFromReq]

def c7order : Order :=
  { internalId := 5, venueId := "vx", signalId := 9, venue := "kcex",
    symbol := "BTC/USDT", side := Side.buy, orderType := OrderType.limit,
    price := 50000, size := 1, filledSize := 0, avgFillPrice := 0,
    status := OrderStatus.acknowledged }

def c7st : OrderManagerState :=
  { orders := fun k => if k = 5 then some c7order else none,
    venueIdMap := fun _ => none,
    idempotencyMap := fun k => if k = "sig-leg-0" then some 5 else none,
    events := [] }

def c7req : OrderRequest :=
  { internalId := 6, signalId := 9, venue := "kcex", symbol := "BTC/USDT",
    side := Side.buy, instrumentType := InstrumentType.spot,
    orderType := OrderType.limit, price := 50000, size := 1,
    idempotencyKey := "sig-leg-0" }

/-- Witness for C7: resubmitting under an idempotency key that already
maps to an existing order returns that order and leaves the state (and the
venue) untouched. -/
theorem submitOrder_idempotent_lifecycle_witness :
    (c7req.idempotencyKey ≠ "") ∧
    c7st.idempotencyMap c7req.idempotencyKey = some 5 ∧
    c7st.orders 5 = some c7order ∧
    submitOrder (fun _ => none) c7st c7req =
      { returned := some c7order, isError := false, venueCalled := false,
        state := c7st } := by
  have hk : c7req.idempotencyKey ≠ "" := by simp [c7req]
  have hmap : c7st.idempotencyMap c7req.idempotencyKey = some 5 := by simp [c7st, c7req]
  have ho : c7st.orders 5 = some c7order := by simp [c7st]
  exact ⟨hk, hmap, ho,
    (submitOrder_idempotent_lifecycle (fun _ => none) c7st c7req).1 5 c7order hk hmap ho⟩

/-! ### Claim C3: terminal orders (violated by the code) -/

def c3filled : Order :=
  { internalId := 1, venueId := "v1", signalId := 1, venue := "kcex",
    symbol := "BTC/USDT", side := Side.buy, orderType := OrderType.limit,
    price := 50000, size := 1, filledSize := 1, avgFillPrice := 50000,
    status := OrderStatus.filled }

def c3cancelled : Order :=
  { internalId := 2, venueId := "v2", signalId := 1, venue := "kcex",
    symbol := "BTC/USDT", side := Side.buy, orderType := OrderType.limit,
    price := 50000, size := 1, filledSize := 0, avgFillPrice := 0,
    status := OrderStatus.cancelled }

def c3stA : OrderManagerState :=
  { orders := fun k => if k = 1 then some c3filled else none,
    venueIdMap := fun _ => none, idempotencyMap := fun _ => none, events := [] }

def c3stB : OrderManagerState :=
  { orders := fun k => if k = 2 then some c3cancelled else none,
    venueIdMap := fun _ => none, idempotencyMap := fun _ => none, events := [] }

def c3gw : String → Option (String → Bool) := fun _ => some (fun _ => true)

/-- C3 is violated by the code: CancelOrder has no terminal-status guard —
applied to a FILLED order it calls the venue and, on venue success, sets
the status to CANCELLED; and UpdateOrderFill has no terminal-status guard —
applied to a CANCELLED order with 0 < filled < requested it moves the
order to PARTIAL_FILL. This theorem evaluates both operations at such
inputs. -/
theorem terminal_order_transitions_again :
    c3filled.status.isTerminal = true ∧
    (cancelOrder c3gw c3stA 1).venueCalled = true ∧
    Option.map Order.status ((cancelOrder c3gw c3stA 1).state.orders 1) =
      some OrderStatus.cancelled ∧
    c3cancelled.status.isTerminal = true ∧
    Option.map Order.status ((updateOrderFill c3stB 2 (1 / 2) 50000).orders 2) =
      some OrderStatus.partFill := by
  refine ⟨rfl, ?_, ?_, rfl, ?_⟩
  · simp [cancelOrder, c3gw, c3stA]
  · simp [cancelOrder, c3gw, c3stA, updateStatus, publishStateChange]
  · norm_num [updateOrderFill, c3stB, c3cancelled, updateStatus, publishStateChange]
    simp

/-! ### Claim C8: sequence gaps (violated by the code) -/

def c8book : OrderBookSnapshot :=
  { venue := "kcex", symbol := "BTC/USDT",
    bids := [{ price := 50000, size := 1 }], asks := [{ price := 50001, size := 1 }],
    sequence := 100 }

def c8st : MDState :=
  { books := fun k => if k = "kcex:BTC/USDT" then some c8book else none,
    lastUpdate := fun k => if k = "kcex:BTC/USDT" then some 0 else none }

def c8delta : OrderBookDelta :=
  { venue := "kcex", symbol := "BTC/USDT", bids := [], asks := [], sequence := 105 }

/-- C8 is violated by the code: ApplyDelta performs no sequence-gap
detection. A delta whose sequence jumps from 100 to 105 is merged
silently, the gapped sequence number is adopted, and IsDataBlocked reads
false (fresh) immediately afterwards instead of the feed being blocked
until a resync; no snapshot request exists anywhere on this path. -/
theorem applyDelta_gap_not_blocked :
    Option.map OrderBookSnapshot.sequence (c8st.books "kcex:BTC/USDT") = some 100 ∧
    Option.map OrderBookSnapshot.sequence
      ((applyDelta 10000 c8st c8delta).1.books "kcex:BTC/USDT") = some 105 ∧
    isDataBlocked 2000 10000 (applyDelta 10000 c8st c8delta).1 "kcex" "BTC/USDT" = false := by
  have hkey : bookKey "kcex" "BTC/USDT" = "kcex:BTC/USDT" := by decide
  refine ⟨by simp [c8st, c8book], ?_, ?_⟩
  · simp [applyDelta, c8st, c8delta, bookKey, hkey]
  · simp only [isDataBlocked, hkey, applyDelta, c8delta, bookKey]
    norm_num

/-! ### Claim C4: triangular edge computation (corrected: the edge is
clamped at zero when the implied rate does not exceed 1) -/

def c4books : String → Option OrderBookSnapshot := fun s =>
  if s = "A" then
    some { venue := "kcex", symbol := "A", bids := [],
           asks := [{ price := 2, size := 1 }], sequence := 1 }
  else if s = "B" then
    some { venue := "kcex", symbol := "B", bids := [{ price := 1, size := 1 }],
           asks := [], sequence := 1 }
  else if s = "C" then
    some { venue := "kcex", symbol := "C", bids := [{ price := 1, size := 1 }],
           asks := [], sequence := 1 }
  else none

def c4path : TriangularPath :=
  { venue := "kcex",
    legs := [⟨"A", Side.buy⟩, ⟨"B", Side.sell⟩, ⟨"C", Side.sell⟩] }

lemma c4_toFixed_one : toFixed 1 = 1000000000 := by
  norm_num [toFixed, ratTrunc, wrap64, pricePrecision]

lemma c4_toFixed_two : toFixed 2 = 2000000000 := by
  norm_num [toFixed, ratTrunc, wrap64, pricePrecision]

lemma c4_implied :
    computeEdgeAux c4books c4path.legs (toFixed 1) = some 500000000 := by
  have hdiv : fixedDiv 1000000000 2000000000 = 500000000 := by decide
  have hmul : fixedMul 500000000 1000000000 = 500000000 := by decide
  simp [computeEdgeAux, c4books, c4path, OrderBookSnapshot.bestAsk,
    OrderBookSnapshot.bestBid, c4_toFixed_one, c4_toFixed_two, hdiv, hmul]

/-- Counterexample to C4 as stated: on a path whose implied compound rate
is 0.5 (a FixedPrice of 500000000), computeEdge returns 0, not
implied − 1 = −500000000; the source clamps non-positive edges to zero. -/
theorem computeEdge_not_implied_minus_one :
    computeEdgeAux c4books c4path.legs (toFixed 1) = some 500000000 ∧
    fixedSub 500000000 (toFixed 1) = -500000000 ∧
    computeEdge c4books c4path ≠ fixedSub 500000000 (toFixed 1) := by
  refine ⟨c4_implied, ?_, ?_⟩
  · rw [c4_toFixed_one]
    decide
  · rw [c4_toFixed_one]
    unfold computeEdge
    rw [c4_implied, c4_toFixed_one]
    decide

/-- C4 (amended): with all three leg books available the implied compound
rate starts at ToFixed(1), divides by the fixed best-ask on buys and
multiplies by the fixed best-bid on sells (computeEdgeAux); the edge is
implied − 1 when implied exceeds 1 and 0 otherwise; a candidate emits only
when the edge exceeds FixedFromBps(min_edge_bps); and a signal is emitted
only when the net edge — edge bps minus the total cost bps of the estimate
requested for the first leg — is strictly positive. -/
theorem computeEdge_clamped_and_gates :
    (∀ (books : String → Option OrderBookSnapshot) (path : TriangularPath) (implied : ℤ),
      computeEdgeAux books path.legs (toFixed 1) = some implied →
      computeEdge books path =
        (if toFixed 1 < implied then fixedSub implied (toFixed 1) else 0)) ∧
    (∀ (minEdgeBps : ℤ) (cost : CostOracle) (venue : String)
       (books : String → Option OrderBookSnapshot) (path : TriangularPath)
       (sig : TradeSignal),
      evaluatePath minEdgeBps cost venue books path = some sig →
      fixedFromBps minEdgeBps < computeEdge books path ∧
      ∃ leg0 est, sig.legs.head? = some leg0 ∧
        cost venue leg0.symbol leg0.side leg0.size OrderType.limit = some est ∧
        0 < fixedToDecimal (computeEdge books path) * 10000 - est.totalBps ∧
        sig.expectedEdgeBps =
          fixedToDecimal (computeEdge books path) * 10000 - est.totalBps) := by
  constructor
  · intro books path implied h
    unfold computeEdge
    rw [h]
  · intro minEdgeBps cost venue books path sig h
    unfold evaluatePath at h
    by_cases hav : allBooksAvailable books path
    · rw [if_pos hav] at h
      by_cases hth : fixedFromBps minEdgeBps < computeEdge books path
      · refine ⟨hth, ?_⟩
        rw [if_pos hth] at h
        unfold buildSignal at h
        cases hbl : buildLegs books path.legs with
        | none => rw [hbl] at h; exact absurd h (by simp)
        | some legs0 =>
          rw [hbl] at h
          simp only [] at h
          cases hhd : (legs0.map (fun l =>
              if 0 < l.price then
                { l with size := (legs0.foldl (fun m l =>
                    if l.price * l.size < m then l.price * l.size else m) 999999999) / l.price }
              else l)).head? with
          | none => rw [hhd] at h; exact absurd h (by simp)
          | some leg0 =>
            rw [hhd] at h
            simp only [] at h
            cases hce : cost venue leg0.symbol leg0.side leg0.size OrderType.limit with
            | none => rw [hce] at h; exact absurd h (by simp)
            | some est =>
              rw [hce] at h
              simp only [] at h
              by_cases hne : fixedToDecimal (computeEdge books path) * 10000 - est.totalBps ≤ 0
              · rw [if_pos hne] at h
                exact absurd h (by simp)
              · rw [if_neg hne] at h
                obtain rfl := Option.some_inj.mp h
                exact ⟨leg0, est, hhd, hce, lt_of_not_le hne, rfl⟩
      · rw [if_neg hth] at h
        exact absurd h (by simp)
    · rw [if_neg hav] at h
      exact absurd h (by simp)

/-- Witness for C4 (amended): at the sub-unit concrete path the implied
rate is 500000000 and the edge clamps to 0. -/
theorem computeEdge_clamped_and_gates_witness :
    computeEdgeAux c4books c4path.legs (toFixed 1) = some 500000000 ∧
    computeEdge c4books c4path =
      (if toFixed 1 < 500000000 then fixedSub 500000000 (toFixed 1) else 0) ∧
    computeEdge c4books c4path = 0 := by
  refine ⟨c4_implied,
    computeEdge_clamped_and_gates.1 c4books c4path 500000000 c4_implied, ?_⟩
  rw [computeEdge_clamped_and_gates.1 c4books c4path 500000000 c4_implied,
    c4_toFixed_one]
  decide

end Trading
